import Mathlib

/-!
Shallow embedding of the review-extraction and persistence logic of
`nolan-enzo-will-glassdoor_scraper.js`.

Page text is modelled as `List Char`.  JavaScript string primitives used by
the scraper (`indexOf` with a start position, `includes`, `substring`,
`split('\n')`, `trim`, `replace`) are embedded as executable functions on
`List Char`, with JS semantics (ASCII character classes for `[A-Z]`, `[a-z]`,
`\d`; the JS `\s` whitespace set for `trim` and `\s`).
-/

namespace Scraper

/-- The JS `\s` character class (also the set trimmed by `String.prototype.trim`):
space, tab, LF, VT, FF, CR, NBSP, and the Unicode space separators. -/
def isJsSpace (c : Char) : Bool :=
  c = ' ' || c = '\t' || c = '\n' || c = '\x0b' || c = '\x0c' || c = '\r' ||
  c = '\u00A0' || c = '\u1680' || (0x2000 ≤ c.val && c.val ≤ 0x200A) ||
  c = '\u2028' || c = '\u2029' || c = '\u202F' || c = '\u205F' || c = '\u3000' ||
  c = '\uFEFF'

/-- `occursAt pat t` holds when `pat` occurs at the very front of `t`
(the prefix test used to scan for substring occurrences). -/
def occursAt : List Char → List Char → Bool
  | [], _ => true
  | _ :: _, [] => false
  | p :: ps, c :: cs => p = c && occursAt ps cs

/-- Scan positions `i, i+1, ...` (at most `fuel` of them) for the first
occurrence of `pat` in `t`. -/
def findIdxAux (t pat : List Char) : Nat → Nat → Option Nat
  | _, 0 => none
  | i, fuel + 1 =>
    if occursAt pat (t.drop i) then some i else findIdxAux t pat (i + 1) fuel

/-- JS `t.indexOf(pat, start)`: index of the first occurrence of `pat` in `t`
at a position `≥ start`, or `none` (JS `-1`). -/
def indexOfFrom (t pat : List Char) (start : Nat) : Option Nat :=
  findIdxAux t pat start (t.length + 1 - start)

/-- JS `t.includes(pat)`. -/
def containsSub (t pat : List Char) : Bool :=
  (indexOfFrom t pat 0).isSome

/-- JS `t.substring(s, e)` for `s ≤ e ≤ t.length` (the only way the scraper
calls it: the start index never exceeds the end index). -/
def substringL (t : List Char) (s e : Nat) : List Char :=
  (t.take e).drop s

/-- JS `t.trim()`: strip `\s` characters from both ends. -/
def trimL (t : List Char) : List Char :=
  ((t.dropWhile isJsSpace).reverse.dropWhile isJsSpace).reverse

/-- JS `t.replace(/[:\-\.]/g, '')`: delete every colon, hyphen and dot. -/
def stripPunct (t : List Char) : List Char :=
  t.filter (fun c => !(c = ':' || c = '-' || c = '.'))

/-- JS `t.split('\n')`. -/
def splitNl : List Char → List (List Char)
  | [] => [[]]
  | c :: rest =>
    if c = '\n' then [] :: splitNl rest
    else
      match splitNl rest with
      | [] => [[c]]
      | h :: tl => (c :: h) :: tl

/-- JS `t.replace(pat, '')` for a plain-string `pat`: remove the first
occurrence of `pat` from `t` (leave `t` unchanged when absent). -/
def removeFirst (t pat : List Char) : List Char :=
  match indexOfFrom t pat 0 with
  | none => t
  | some i => t.take i ++ t.drop (i + pat.length)

/-- JS `t.replace(/^[\s\-\|]+/, '')`: drop the leading run of whitespace,
hyphens and pipes. -/
def dropLeadingSeps (t : List Char) : List Char :=
  t.dropWhile (fun c => isJsSpace c || c = '-' || c = '|')

/-- The scraper's `getSection` helper (lines 291–306): if `startKeyword`
occurs in `text`, take the substring from just after its first occurrence up
to the nearest later occurrence of any of `endKeywords` (end of text when
none occurs), delete `[:\-\.]` characters, and trim. -/
def getSection (text startKeyword : List Char) (endKeywords : List (List Char)) :
    Option (List Char) :=
  match indexOfFrom text startKeyword 0 with
  | none => none
  | some i =>
    let startIndex := i + startKeyword.length
    let endIndex := endKeywords.foldl
      (fun e key =>
        match indexOfFrom text key startIndex with
        | some idx => if idx < e then idx else e
        | none => e)
      text.length
    some (trimL (stripPunct (substringL text startIndex endIndex)))

/-- The JS regex class `\d` (ASCII digits). -/
def isDigitA (c : Char) : Bool :=
  48 ≤ c.toNat && c.toNat ≤ 57

/-- The JS regex class `[A-Z]`. -/
def isUpperA (c : Char) : Bool :=
  65 ≤ c.toNat && c.toNat ≤ 90

/-- The JS regex class `[a-z]`. -/
def isLowerA (c : Char) : Bool :=
  97 ≤ c.toNat && c.toNat ≤ 122

/-- Line 313, `text.match(/^[0-5]\.\d/)`: a leading digit `0`–`5` (code
points 48–53), a dot, and a digit, anchored at the start of the text. -/
def regexRatingAtStart : List Char → Option (List Char)
  | a :: b :: c :: _ =>
    if (48 ≤ a.toNat ∧ a.toNat ≤ 53) ∧ b = '.' ∧ isDigitA c then some [a, b, c]
    else none
  | _ => none

/-- Line 320's pattern `/[A-Z][a-z]{2,9}\s\d{1,2},\s\d{4}/` matched at the
very start of `l`, returning the matched characters.  For this pattern,
greedy matching without backtracking coincides with full regex semantics:
each quantified class run is maximal (the character after it is outside the
class), and shrinking a greedy run only re-exposes a character of that same
class, which the following pattern element rejects. -/
def matchDateAt (l : List Char) : Option (List Char) :=
  match l with
  | [] => none
  | c :: rest =>
    if isUpperA c then
      let low := rest.takeWhile isLowerA
      let rest1 := rest.dropWhile isLowerA
      if 2 ≤ low.length ∧ low.length ≤ 9 then
        match rest1 with
        | s1 :: rest2 =>
          if isJsSpace s1 then
            let digs := rest2.takeWhile isDigitA
            let rest3 := rest2.dropWhile isDigitA
            if 1 ≤ digs.length ∧ digs.length ≤ 2 then
              match rest3 with
              | ',' :: s2 :: rest4 =>
                if isJsSpace s2 then
                  let digs2 := rest4.takeWhile isDigitA
                  if 4 ≤ digs2.length then
                    some (c :: low ++ s1 :: digs ++ ',' :: s2 :: digs2.take 4)
                  else none
                else none
              | _ => none
            else none
          else none
        | [] => none
      else none
    else none

/-- Leftmost match of the date pattern in `l` (JS `text.match(...)` scans
match positions left to right). -/
def findDateIn : List Char → Option (List Char)
  | [] => none
  | c :: rest =>
    match matchDateAt (c :: rest) with
    | some m => some m
    | none => findDateIn rest

/-- A candidate DOM node, abstracted to exactly the features that
`parseReviewCard` reads: its `innerText`, and the `innerText` of the first
descendant matched by each of its three `querySelector` calls (`none` when
the selector matches no element). -/
structure Card where
  innerText : List Char
  ratingNumberEl : Option (List Char)  -- first `.ratingNumber` descendant
  ratingSpanEl : Option (List Char)  -- first `span[class*="rating"]` descendant
  reviewLinkEl : Option (List Char)  -- first `a[href*="/Reviews/Employee-Review"]`
deriving DecidableEq

/-- The object literal returned on line 352. -/
structure Record where
  rating : Option (List Char)
  date : Option (List Char)
  title : Option (List Char)
  job_title : Option (List Char)
  pros : Option (List Char)
  cons : Option (List Char)
  advice : Option (List Char)
deriving DecidableEq

/-- JS truthiness of a nullable string: `null` and `""` are falsy. -/
def truthyS : Option (List Char) → Bool
  | none => false
  | some s => !s.isEmpty

/-- Lines 309–315: rating from the first rating-styled sub-element (trimmed),
else the leading `[0-5]\.\d` pattern.  An element whose trimmed text is empty
is falsy, so it falls through to the pattern (and remains the value when the
pattern also fails, still falsy). -/
def extractRating (card : Card) : Option (List Char) :=
  let rating0 := (card.ratingNumberEl <|> card.ratingSpanEl).map trimL
  if truthyS rating0 then rating0
  else
    match regexRatingAtStart card.innerText with
    | some m => some m
    | none => rating0

/-- Lines 318–323: the first "Month DD, YYYY" pattern match in the text. -/
def extractDate (card : Card) : Option (List Char) :=
  findDateIn card.innerText

/-- Lines 326–330: title from the Employee-Review link, trimmed. -/
def extractTitle (card : Card) : Option (List Char) :=
  card.reviewLinkEl.map trimL

/-- Lines 334–343: find the first text line containing the extracted date,
remove the date substring, drop leading `[\s\-\|]+` separators, and trim. -/
def extractJobTitle (card : Card) : Option (List Char) :=
  match extractDate card with
  | none => none
  | some d =>
    match (splitNl card.innerText).find? (fun l => containsSub l d) with
    | none => none
    | some dateLine => some (trimL (dropLeadingSeps (removeFirst dateLine d)))

/-- Line 346. -/
def extractPros (card : Card) : Option (List Char) :=
  getSection card.innerText "Pros".toList
    ["Cons".toList, "Advice to Management".toList, "Helpful".toList]

/-- Line 347. -/
def extractCons (card : Card) : Option (List Char) :=
  getSection card.innerText "Cons".toList
    ["Advice to Management".toList, "Helpful".toList]

/-- Line 348. -/
def extractAdvice (card : Card) : Option (List Char) :=
  getSection card.innerText "Advice to Management".toList ["Helpful".toList]

/-- Line 286: the aggregate-count noise test. -/
def noiseTest (card : Card) : Bool :=
  containsSub card.innerText "(in ".toList && containsSub card.innerText "reviews)".toList

/-- Line 287: the minimum-length test. -/
def tooShort (card : Card) : Bool :=
  decide (card.innerText.length < 50)

/-- Line 288: no "Star" token and no rating-styled sub-element. -/
def noRatingSignal (card : Card) : Bool :=
  !containsSub card.innerText "Star".toList &&
    card.ratingNumberEl.isNone && card.ratingSpanEl.isNone

/-- Line 351: the retention test `rating && (pros || cons || title)`. -/
def retainTest (card : Card) : Bool :=
  truthyS (extractRating card) &&
    (truthyS (extractPros card) || truthyS (extractCons card) || truthyS (extractTitle card))

/-- Lines 282–355, `parseReviewCard`: reject garbage, extract the fields, and
return a record exactly when the retention test passes. -/
def parseReviewCard (card : Card) : Option Record :=
  if noiseTest card then none
  else if tooShort card then none
  else if noRatingSignal card then none
  else if retainTest card then
    some { rating := extractRating card, date := extractDate card,
           title := extractTitle card, job_title := extractJobTitle card,
           pros := extractPros card, cons := extractCons card,
           advice := extractAdvice card }
  else none

/-- Numeric value, in tenths, of a rating string of the shape
digit–dot–digit. -/
def ratingTenths : List Char → Option Nat
  | [a, b, c] =>
    if isDigitA a ∧ b = '.' ∧ isDigitA c then
      some (10 * (a.toNat - 48) + (c.toNat - 48))
    else none
  | _ => none

/-- Numeric value of a digit–dot–digit rating string, as a rational. -/
def ratingValue (s : List Char) : Option ℚ :=
  (ratingTenths s).map (fun n => (n : ℚ) / 10)

/-- The persisted JSON store (`OUTPUT_FILE`) as `saveData` observes it:
absent, present but failing `JSON.parse` (the silently-caught branch on
line 45), or a parsed array. -/
inductive StoreFile (α : Type) where
  | absent : StoreFile α
  | unparsable : StoreFile α
  | parsed : List α → StoreFile α
deriving DecidableEq

/-- Lines 43–45: `existing` is the parsed array when the file exists and
parses; a missing file or a `JSON.parse` exception leaves `existing = []`
(the exception is swallowed by the empty `catch`). -/
def readExisting {α : Type} : StoreFile α → List α
  | .absent => []
  | .unparsable => []
  | .parsed l => l

/-- Lines 42–49, `saveData`: read-modify-write batch append — the whole file
is rewritten with `[...existing, ...newData]`.  Total: no error is ever
raised or reported. -/
def saveData {α : Type} (st : StoreFile α) (newData : List α) : StoreFile α :=
  .parsed (readExisting st ++ newData)

/-- The observable state of the "next" pagination control on one page
(lines 395–408): whether any selector matched, and the matched control's
visibility, disabled state and class attribute. -/
structure NextButtonState where
  matched : Bool  -- `nextButton.count() > 0`
  visible : Bool  -- `nextButton.isVisible()`
  disabled : Bool  -- `nextButton.isDisabled()`
  className : List Char  -- `nextButton.getAttribute('class') || ""`
deriving DecidableEq

/-- Lines 397–418: the loop breaks before clicking "next" when no selector
matched, or the control is hidden, or it is disabled via the disabled state
or a class name containing "disabled". -/
def stopsPagination (s : NextButtonState) : Bool :=
  !s.matched || !s.visible || s.disabled || containsSub s.className "disabled".toList

/-- Line 16. -/
def MAX_PAGES_PER_COMPANY : Nat := 30

/-- Lines 260–430, the per-entity page loop, counting scraped pages:
each iteration scrapes one page, then inspects the "next" control
(`states i` is its state on the i-th page) and either breaks or clicks. -/
def pagesLoop (states : Nat → NextButtonState) : Nat → Nat → Nat
  | 0, _ => 0
  | fuel + 1, i =>
    1 + (if stopsPagination (states i) then 0 else pagesLoop states fuel (i + 1))

/-- The loop header on line 260: `for (let i = 0; i < MAX_PAGES_PER_COMPANY; i++)`. -/
def pagesScraped (states : Nat → NextButtonState) : Nat :=
  pagesLoop states MAX_PAGES_PER_COMPANY 0

/-- Line 365's per-div candidate test: text contains "Pros" and "Cons" and
is under 2000 characters. -/
def candidateCriteria {Node : Type} (innerTextOf : Node → List Char) (d : Node) : Bool :=
  containsSub (innerTextOf d) "Pros".toList &&
    containsSub (innerTextOf d) "Cons".toList &&
    decide ((innerTextOf d).length < 2000)

/-- Lines 364–366: the fallback candidate set — all divs passing the
candidate test, minus every div contained in a *different* such div
(`other !== d && other.contains(d)`).  `containsNode a b` is DOM
`a.contains(b)` (which also holds when `a = b`). -/
def fallbackCandidates {Node : Type} [DecidableEq Node]
    (containsNode : Node → Node → Bool) (innerTextOf : Node → List Char)
    (divs : List Node) : List Node :=
  let reviewDivs := divs.filter (candidateCriteria innerTextOf)
  reviewDivs.filter (fun d => !reviewDivs.any (fun other => other ≠ d && containsNode other d))

/-- Modelled from the spec (the wording of claim C5): the raw
delimiter-bounded slice — from just after the first occurrence of the start
keyword to the nearest later occurrence of any terminator keyword, or the
end of the text when none occurs.  The nearest occurrence is expressed as a
minimum over all terminator occurrences, unlike the sequential fold in the
code's `getSection`. -/
def sliceSection (text startKeyword : List Char) (endKeywords : List (List Char)) :
    Option (List Char) :=
  match indexOfFrom text startKeyword 0 with
  | none => none
  | some i =>
    let s := i + startKeyword.length
    let e := ((endKeywords.filterMap (fun key => indexOfFrom text key s)).foldr min text.length)
    some (substringL text s e)

/-- Modelled from the spec (the wording of claim C5): normalize only
*trailing* punctuation — trim whitespace, drop trailing `:`/`-`/`.`
characters, trim again — leaving the interior of the section unchanged. -/
def claimNormalize (raw : List Char) : List Char :=
  let t := trimL raw
  trimL ((t.reverse.dropWhile (fun c => c = ':' || c = '-' || c = '.')).reverse)

/-- Modelled from the spec (the wording of claim C5): the section content as
the claim describes it, interior untouched. -/
def claimSection (text startKeyword : List Char) (endKeywords : List (List Char)) :
    Option (List Char) :=
  (sliceSection text startKeyword endKeywords).map claimNormalize

/-- Claim C4 instance data: the spec's section-extraction example. -/
def c4Text : List Char := "Pros good pay Cons long hours Helpful (3)".toList

/-- A concrete accepted candidate node: 51 characters, a "Star" token, a
leading `5.0` rating, Pros and Cons sections, no sub-elements. -/
def card0 : Card :=
  { innerText := "5.0 Star Pros good pay Cons long hours Helpful xxxx".toList,
    ratingNumberEl := none, ratingSpanEl := none, reviewLinkEl := none }

/-- The record `parseReviewCard` produces for `card0`. -/
def r0 : Record :=
  { rating := some "5.0".toList, date := none, title := none, job_title := none,
    pros := some "good pay".toList, cons := some "long hours".toList, advice := none }

/-- Like `card0` but with leading text `5.9`: the pattern `^[0-5]\.\d`
accepts it, although 5.9 is outside [0, 5]. -/
def card59 : Card :=
  { innerText := "5.9 Star Pros good pay Cons long hours Helpful xxxx".toList,
    ratingNumberEl := none, ratingSpanEl := none, reviewLinkEl := none }

/-- The record `parseReviewCard` produces for `card59`. -/
def r59 : Record :=
  { rating := some "5.9".toList, date := none, title := none, job_title := none,
    pros := some "good pay".toList, cons := some "long hours".toList, advice := none }

/-- A node passing the garbage filters (56 characters, "Star" token) with no
extractable rating and no pros/cons/title. -/
def cardNoRetain : Card :=
  { innerText := "Star xxxxxxxxxxxxxxxxxxxxxxxxxxxxxxxxxxxxxxxxxxxxxxxxxx".toList,
    ratingNumberEl := none, ratingSpanEl := none, reviewLinkEl := none }

/-- A five-character node: below the 50-character threshold. -/
def cardShort : Card :=
  { innerText := "short".toList,
    ratingNumberEl := none, ratingSpanEl := none, reviewLinkEl := none }

/-- A node containing the line `"Nov 28, 2025 - Current Employee - Engineer"`
but with an *earlier* date-pattern match (`"Jan 1, 2020"`) in its text. -/
def c6CardBad : Card :=
  { innerText :=
      "5.0 Star aaaaaaaaaaaaaaaa Jan 1, 2020\nNov 28, 2025 - Current Employee - Engineer\nPros good pay Cons long hours Helpful".toList,
    ratingNumberEl := none, ratingSpanEl := none, reviewLinkEl := none }

/-- The record `parseReviewCard` produces for `c6CardBad`. -/
def r6Bad : Record :=
  { rating := some "5.0".toList, date := some "Jan 1, 2020".toList, title := none,
    job_title := some "5.0 Star aaaaaaaaaaaaaaaa".toList,
    pros := some "good pay".toList, cons := some "long hours".toList, advice := none }

/-- A node whose first (and only) date-pattern match sits in the line
`"Nov 28, 2025 - Current Employee - Engineer"`. -/
def c6Card : Card :=
  { innerText :=
      "5.0 Star good stuff here yes\nNov 28, 2025 - Current Employee - Engineer\nPros good pay Cons long hours Helpful".toList,
    ratingNumberEl := none, ratingSpanEl := none, reviewLinkEl := none }

/-- The record `parseReviewCard` produces for `c6Card`. -/
def r6 : Record :=
  { rating := some "5.0".toList, date := some "Nov 28, 2025".toList, title := none,
    job_title := some "Current Employee - Engineer".toList,
    pros := some "good pay".toList, cons := some "long hours".toList, advice := none }

/-- Claim C5 counterexample data: a Pros section with an interior hyphen. -/
def c5Text : List Char := "Pros good-pay deal Cons bad stuff".toList

/-- A "next" control that is matched and visible but disabled. -/
def stopAtOnce : Nat → NextButtonState :=
  fun _ => { matched := true, visible := true, disabled := true, className := [] }

/-- Claim C8 witness data: two nodes `0` (parent) and `1` (child); node `0`
contains itself and node `1`, node `1` contains only itself. -/
def containsNode01 : Nat → Nat → Bool :=
  fun a b => (a = 0 && (b = 0 || b = 1)) || (a = 1 && b = 1)

/-- Claim C8 witness data: both nodes carry a matching review text. -/
def innerTextOf01 : Nat → List Char :=
  fun _ => "Pros aa Cons bb".toList

end Scraper

open Scraper

/-- C3: starting from an absent store, appending a batch `b1` and then a
batch `b2` via `saveData` persists exactly `b1 ++ b2`: `b1.length + b2.length`
records, all of the first batch before all of the second, order within each
batch preserved. -/
theorem c3_saveData_roundtrip {α : Type} (b1 b2 : List α) :
    saveData (saveData StoreFile.absent b1) b2 = StoreFile.parsed (b1 ++ b2) ∧
    (b1 ++ b2).length = b1.length + b2.length := by
  exact ⟨rfl, by simp⟩

/-- C10: when the store file is present but does not parse as JSON,
`saveData` silently treats the store as empty and rewrites the file with only
the new batch: the previously accumulated contents are discarded (the result
does not depend on them) and no error is raised (`saveData` is total). -/
theorem c10_unparsable_store_overwritten {α : Type} (b : List α) :
    saveData StoreFile.unparsable b = StoreFile.parsed b := rfl

/-- C9: `parseReviewCard` yields no record when the node's text matches the
aggregate-count noise pattern (contains both `"(in "` and `"reviews)"`), or
is shorter than 50 characters, or lacks any rating signal (no `"Star"` token
and no rating-styled sub-element); in particular a text blob lacking both a
rating signal and the qualifying length yields no record. -/
theorem c9_rejection (card : Card)
    (h : noiseTest card = true ∨ tooShort card = true ∨ noRatingSignal card = true) :
    parseReviewCard card = none := by
  rcases h with h | h | h
  · simp [parseReviewCard, h]
  · by_cases h1 : noiseTest card <;> simp [parseReviewCard, h, h1]
  · by_cases h1 : noiseTest card
    · simp [parseReviewCard, h1]
    · by_cases h2 : tooShort card <;> simp [parseReviewCard, h, h1, h2]

/-- Witness for C9: a five-character text blob (below the length threshold,
no rating signal) yields no record. -/
theorem c9_rejection_witness : parseReviewCard cardShort = none :=
  c9_rejection cardShort (Or.inr (Or.inl (by decide)))

/-- C1: a record is produced only if a rating was extracted and at least one
of pros, cons, title is present (non-null and non-empty); any candidate node
failing this condition yields no record. -/
theorem c1_retention_invariant (card : Card) :
    (∀ r : Record, parseReviewCard card = some r →
      truthyS r.rating = true ∧
        (truthyS r.pros || truthyS r.cons || truthyS r.title) = true) ∧
    (retainTest card = false → parseReviewCard card = none) := by
  constructor
  · intro r hr
    by_cases h1 : noiseTest card
    · simp [parseReviewCard, h1] at hr
    · by_cases h2 : tooShort card
      · simp [parseReviewCard, h1, h2] at hr
      · by_cases h3 : noRatingSignal card
        · simp [parseReviewCard, h1, h2, h3] at hr
        · by_cases h4 : retainTest card
          · simp [parseReviewCard, h1, h2, h3, h4] at hr
            have h4' := h4
            rw [retainTest, Bool.and_eq_true] at h4'
            rw [← hr]
            exact h4'
          · simp [parseReviewCard, h1, h2, h3, h4] at hr
  · intro h4
    by_cases h1 : noiseTest card
    · simp [parseReviewCard, h1]
    · by_cases h2 : tooShort card
      · simp [parseReviewCard, h1, h2]
      · by_cases h3 : noRatingSignal card
        · simp [parseReviewCard, h1, h2, h3]
        · simp [parseReviewCard, h1, h2, h3, h4]

/-- Witness for C1: the concrete accepted record of `card0` satisfies the
retention invariant, and the concrete node `cardNoRetain` (filters pass,
retention fails) yields no record. -/
theorem c1_retention_invariant_witness :
    (truthyS r0.rating = true ∧
      (truthyS r0.pros || truthyS r0.cons || truthyS r0.title) = true) ∧
    parseReviewCard cardNoRetain = none :=
  ⟨(c1_retention_invariant card0).1 r0 (by decide),
   (c1_retention_invariant cardNoRetain).2 (by decide)⟩

/-- C4: on `"Pros good pay Cons long hours Helpful (3)"`, `getSection` returns
`"good pay"` for start keyword `"Pros"` with terminators
`{"Cons", "Advice to Management", "Helpful"}`, and `"long hours"` for start
keyword `"Cons"` with terminators `{"Advice to Management", "Helpful"}`. -/
theorem c4_getSection_example :
    Scraper.getSection Scraper.c4Text "Pros".toList
        ["Cons".toList, "Advice to Management".toList, "Helpful".toList] =
      some "good pay".toList ∧
    Scraper.getSection Scraper.c4Text "Cons".toList
        ["Advice to Management".toList, "Helpful".toList] =
      some "long hours".toList := by
  constructor <;> decide

namespace Scraper

/-- The page loop never performs more iterations than its fuel. -/
lemma pagesLoop_le (states : Nat → NextButtonState) :
    ∀ fuel i, pagesLoop states fuel i ≤ fuel := by
  intro fuel
  induction fuel with
  | zero => intro i; simp [pagesLoop]
  | succ fuel ih =>
    intro i
    rw [pagesLoop]
    split
    · omega
    · have := ih (i + 1)
      omega

/-- If the first stopping control state is the `k`-th one, the page loop
runs exactly `min (k + 1) fuel` iterations. -/
lemma pagesLoop_first_stop (states : Nat → NextButtonState) :
    ∀ fuel i k, (∀ j, j < k → stopsPagination (states (i + j)) = false) →
      stopsPagination (states (i + k)) = true →
      pagesLoop states fuel i = min (k + 1) fuel := by
  intro fuel
  induction fuel with
  | zero => intro i k _ _; simp [pagesLoop]
  | succ fuel ih =>
    intro i k hall hstop
    cases k with
    | zero =>
      rw [pagesLoop]
      rw [show i + 0 = i from rfl] at hstop
      rw [if_pos hstop]
      omega
    | succ k =>
      have h0 : stopsPagination (states i) = false := by
        have := hall 0 (Nat.succ_pos k)
        simpa using this
      rw [pagesLoop, if_neg (by simp [h0])]
      have hall' : ∀ j, j < k → stopsPagination (states (i + 1 + j)) = false := by
        intro j hj
        have := hall (j + 1) (by omega)
        rw [show i + (j + 1) = i + 1 + j by omega] at this
        exact this
      have hstop' : stopsPagination (states (i + 1 + k)) = true := by
        rw [show i + 1 + k = i + (k + 1) by omega]
        exact hstop
      rw [ih (i + 1) k hall' hstop']
      omega

end Scraper

/-- C7: the per-entity page loop terminates — it performs at most
`MAX_PAGES_PER_COMPANY = 30` iterations, and stops as soon as the "next"
control matches no selector, is invisible, or is disabled (via the disabled
state or a class name containing `"disabled"`): if the `k`-th observed state
is the first stopping one, exactly `min (k + 1) 30` pages are scraped. -/
theorem c7_pagination_terminates (states : Nat → NextButtonState) :
    pagesScraped states ≤ MAX_PAGES_PER_COMPANY ∧
    (∀ k, (∀ j, j < k → stopsPagination (states j) = false) →
      stopsPagination (states k) = true →
      pagesScraped states = min (k + 1) MAX_PAGES_PER_COMPANY) := by
  constructor
  · exact pagesLoop_le states MAX_PAGES_PER_COMPANY 0
  · intro k hall hstop
    exact pagesLoop_first_stop states MAX_PAGES_PER_COMPANY 0 k
      (by simpa using hall) (by simpa using hstop)

/-- Witness for C7: a control that is disabled on the very first page stops
the loop after one scraped page. -/
theorem c7_pagination_terminates_witness :
    pagesScraped stopAtOnce ≤ MAX_PAGES_PER_COMPANY ∧
    pagesScraped stopAtOnce = min (0 + 1) MAX_PAGES_PER_COMPANY :=
  ⟨(c7_pagination_terminates stopAtOnce).1,
   (c7_pagination_terminates stopAtOnce).2 0
     (fun j hj => absurd hj (Nat.not_lt_zero j)) (by decide)⟩

/-- C8: in the fallback candidate-selection path, when a matching block `c`
is a descendant of a different matching block `p` and `p` is outermost (no
other matching block in the list contains it), the deduplicated candidate
set retains `p` and removes the nested `c`. -/
theorem c8_dedup_containment {Node : Type} [DecidableEq Node]
    (containsNode : Node → Node → Bool) (innerTextOf : Node → List Char)
    (divs : List Node) (p c : Node)
    (hp : p ∈ divs) (hc : c ∈ divs)
    (hcp : candidateCriteria innerTextOf p = true)
    (hcc : candidateCriteria innerTextOf c = true)
    (hcontain : containsNode p c = true) (hne : p ≠ c)
    (houter : ∀ o ∈ divs, candidateCriteria innerTextOf o = true → o ≠ p →
      containsNode o p = false) :
    p ∈ fallbackCandidates containsNode innerTextOf divs ∧
    c ∉ fallbackCandidates containsNode innerTextOf divs := by
  constructor
  · rw [fallbackCandidates, List.mem_filter]
    refine ⟨List.mem_filter.mpr ⟨hp, hcp⟩, ?_⟩
    simp only [Bool.not_eq_true', List.any_eq_false]
    intro o ho
    rw [List.mem_filter] at ho
    by_cases heq : o = p
    · subst heq
      simp
    · simp [houter o ho.1 ho.2 heq]
  · intro hmem
    rw [fallbackCandidates, List.mem_filter] at hmem
    obtain ⟨-, hpred⟩ := hmem
    rw [Bool.not_eq_true', List.any_eq_false] at hpred
    have := hpred p (List.mem_filter.mpr ⟨hp, hcp⟩)
    simp [hne, hcontain] at this

/-- Witness for C8: with parent node `0` containing child node `1`, both
matching the candidate criteria, the fallback set keeps `0` and drops `1`. -/
theorem c8_dedup_containment_witness :
    0 ∈ fallbackCandidates containsNode01 innerTextOf01 [0, 1] ∧
    1 ∉ fallbackCandidates containsNode01 innerTextOf01 [0, 1] :=
  c8_dedup_containment containsNode01 innerTextOf01 [0, 1] 0 1
    (by decide) (by decide) (by decide) (by decide) (by decide) (by decide)
    (by decide)

namespace Scraper

/-- Inversion of a successful `parseReviewCard`: the retention test passed
and the record is built from the extraction functions. -/
lemma parse_some_inv (card : Card) (r : Record) (hp : parseReviewCard card = some r) :
    retainTest card = true ∧
    r = { rating := extractRating card, date := extractDate card,
          title := extractTitle card, job_title := extractJobTitle card,
          pros := extractPros card, cons := extractCons card,
          advice := extractAdvice card } := by
  by_cases g1 : noiseTest card
  · simp [parseReviewCard, g1] at hp
  · by_cases g2 : tooShort card
    · simp [parseReviewCard, g1, g2] at hp
    · by_cases g3 : noRatingSignal card
      · simp [parseReviewCard, g1, g2, g3] at hp
      · by_cases g4 : retainTest card
        · simp [parseReviewCard, g1, g2, g3, g4] at hp
          exact ⟨g4, hp.symm⟩
        · simp [parseReviewCard, g1, g2, g3, g4] at hp

/-- Inversion of a successful leading-rating pattern match. -/
lemma regexRatingAtStart_inv {t m : List Char} (h : regexRatingAtStart t = some m) :
    ∃ a c rest, t = a :: '.' :: c :: rest ∧ 48 ≤ a.toNat ∧ a.toNat ≤ 53 ∧
      isDigitA c = true ∧ m = [a, '.', c] := by
  cases t with
  | nil => simp [regexRatingAtStart] at h
  | cons a t1 =>
    cases t1 with
    | nil => simp [regexRatingAtStart] at h
    | cons b t2 =>
      cases t2 with
      | nil => simp [regexRatingAtStart] at h
      | cons c rest =>
        rw [regexRatingAtStart] at h
        split_ifs at h with hcond
        obtain ⟨⟨ha1, ha2⟩, hb, hc⟩ := hcond
        injection h with h
        subst hb
        exact ⟨a, c, rest, rfl, ha1, ha2, hc, h.symm⟩

/-- The code's `if idx < e then idx else e` update is a `min`. -/
lemma ite_lt_eq_min (i e : Nat) : (if i < e then i else e) = min i e := by
  rcases Nat.lt_or_ge i e with h | h
  · rw [if_pos h, Nat.min_eq_left (Nat.le_of_lt h)]
  · rw [if_neg (Nat.not_lt.mpr h), Nat.min_eq_right h]

/-- Folding `min` with a `min` seeded in the accumulator. -/
lemma foldr_min_comm (l : List Nat) (a b : Nat) :
    l.foldr min (min a b) = min a (l.foldr min b) := by
  induction l with
  | nil => rfl
  | cons c l ih => simp [List.foldr_cons, ih, min_left_comm]

/-- The sequential nearest-terminator fold of `getSection` computes the
minimum over all terminator occurrences. -/
lemma foldl_nearest (f : List Char → Option Nat) (L : List (List Char)) (init : Nat) :
    L.foldl
      (fun e key =>
        match f key with
        | some idx => if idx < e then idx else e
        | none => e)
      init = (L.filterMap f).foldr min init := by
  induction L generalizing init with
  | nil => rfl
  | cons k L ih =>
    rw [List.foldl_cons, List.filterMap_cons]
    cases hk : f k with
    | none =>
      simp only [hk]
      exact ih init
    | some i =>
      simp only [hk]
      rw [ih, ite_lt_eq_min, List.foldr_cons]
      exact foldr_min_comm (L.filterMap f) i init

end Scraper

/-- Counterexample to C2 as stated: the node `card59` (text starting
`"5.9 Star"`, no rating sub-element) is accepted, its record carries rating
string `"5.9"`, and the value 59/10 is outside [0, 5] — the pattern
`^[0-5]\.\d` only constrains the integer digit. -/
theorem c2_rating_range_counterexample :
    parseReviewCard card59 = some r59 ∧
    ratingValue "5.9".toList = some (59 / 10 : ℚ) ∧ ¬((59 / 10 : ℚ) ≤ 5) := by
  refine ⟨by decide, ?_, by norm_num⟩
  have h : ratingTenths "5.9".toList = some 59 := by decide
  simp only [ratingValue, h, Option.map_some']
  norm_num

/-- C2 amended: for every accepted record whose rating came from the
leading-decimal text pattern (the node has no rating-styled sub-element),
the rating value lies in [0.0, 5.9]. -/
theorem c2_rating_range_amended (card : Card) (r : Record)
    (h1 : card.ratingNumberEl = none) (h2 : card.ratingSpanEl = none)
    (hp : parseReviewCard card = some r) :
    ∃ s q, r.rating = some s ∧ ratingValue s = some q ∧ 0 ≤ q ∧ q ≤ 59 / 10 := by
  obtain ⟨hret, hr⟩ := parse_some_inv card r hp
  subst hr
  rw [retainTest, Bool.and_eq_true] at hret
  obtain ⟨ha, -⟩ := hret
  cases hm : regexRatingAtStart card.innerText with
  | none =>
    have hre : extractRating card = none := by
      simp [extractRating, h1, h2, truthyS, hm]
    rw [hre] at ha
    simp [truthyS] at ha
  | some m =>
    have hre : extractRating card = some m := by
      simp [extractRating, h1, h2, truthyS, hm]
    obtain ⟨a, c, rest, hshape, ha1, ha2, hdig, hm'⟩ := regexRatingAtStart_inv hm
    subst hm'
    have hda : isDigitA a = true := by
      simp only [isDigitA, Bool.and_eq_true, decide_eq_true_eq]
      omega
    have hdc : 48 ≤ c.toNat ∧ c.toNat ≤ 57 := by
      simpa [isDigitA, Bool.and_eq_true, decide_eq_true_eq] using hdig
    have hrt : ratingTenths [a, '.', c] = some (10 * (a.toNat - 48) + (c.toNat - 48)) := by
      simp [ratingTenths, hda, hdig]
    refine ⟨[a, '.', c], ((10 * (a.toNat - 48) + (c.toNat - 48) : ℕ) : ℚ) / 10,
      hre, ?_, ?_, ?_⟩
    · simp [ratingValue, hrt]
    · positivity
    · have hn : (10 * (a.toNat - 48) + (c.toNat - 48)) ≤ 59 := by omega
      have hq : ((10 * (a.toNat - 48) + (c.toNat - 48) : ℕ) : ℚ) ≤ 59 := by
        exact_mod_cast hn
      linarith

/-- Witness for the amended C2: the record of `card0` has rating `"5.0"`,
value 5 ∈ [0, 5.9]. -/
theorem c2_rating_range_amended_witness :
    ∃ s q, r0.rating = some s ∧ ratingValue s = some q ∧ 0 ≤ q ∧ q ≤ 59 / 10 :=
  c2_rating_range_amended card0 r0 rfl rfl (by decide)

/-- Counterexample to C5 as stated: for the text
`"Pros good-pay deal Cons bad stuff"`, the code's `getSection` returns
`"goodpay deal"` — the *interior* hyphen of the section is deleted — while
the claim's "only trailing punctuation normalized, interior unchanged"
reading (`claimSection`) yields `"good-pay deal"`. -/
theorem c5_section_counterexample :
    getSection c5Text "Pros".toList
        ["Cons".toList, "Advice to Management".toList, "Helpful".toList] =
      some "goodpay deal".toList ∧
    claimSection c5Text "Pros".toList
        ["Cons".toList, "Advice to Management".toList, "Helpful".toList] =
      some "good-pay deal".toList ∧
    ("goodpay deal".toList : List Char) ≠ "good-pay deal".toList := by
  exact ⟨by decide, by decide, by decide⟩

/-- C5 amended: for every text containing the start keyword, the extracted
section is the substring running from just after the first occurrence of the
start keyword to the nearest subsequent occurrence of any terminator keyword
(end of text if none), with *all* `:`/`-`/`.` characters (interior ones
included) deleted and surrounding whitespace trimmed. -/
theorem c5_section_amended (text k : List Char) (ends : List (List Char))
    (h : containsSub text k = true) :
    ∃ raw, sliceSection text k ends = some raw ∧
      getSection text k ends = some (trimL (stripPunct raw)) := by
  rw [containsSub, Option.isSome_iff_exists] at h
  obtain ⟨i, hi⟩ := h
  refine ⟨substringL text (i + k.length)
      ((ends.filterMap (fun key => indexOfFrom text key (i + k.length))).foldr
        min text.length), ?_, ?_⟩
  · simp only [sliceSection, hi]
  · simp only [getSection, hi]
    rw [foldl_nearest]

/-- Witness for the amended C5: the spec's own example text. -/
theorem c5_section_amended_witness :
    ∃ raw, sliceSection c4Text "Pros".toList
        ["Cons".toList, "Advice to Management".toList, "Helpful".toList] = some raw ∧
      getSection c4Text "Pros".toList
        ["Cons".toList, "Advice to Management".toList, "Helpful".toList] =
        some (trimL (stripPunct raw)) :=
  c5_section_amended c4Text "Pros".toList
    ["Cons".toList, "Advice to Management".toList, "Helpful".toList] (by decide)

/-- Counterexample to C6 as stated: node `c6CardBad` contains the line
`"Nov 28, 2025 - Current Employee - Engineer"`, yet its record's date is
`"Jan 1, 2020"` (an earlier match of the date pattern elsewhere in the text)
and its employment-status line is taken from that earlier line instead. -/
theorem c6_date_jobtitle_counterexample :
    containsSub c6CardBad.innerText
        "Nov 28, 2025 - Current Employee - Engineer".toList = true ∧
    parseReviewCard c6CardBad = some r6Bad ∧
    r6Bad.date ≠ some "Nov 28, 2025".toList ∧
    r6Bad.job_title ≠ some "Current Employee - Engineer".toList := by
  exact ⟨by decide, by decide, by decide, by decide⟩

/-- C6 amended: for a candidate node whose *first* date-pattern match is
`"Nov 28, 2025"` and whose first text line containing that date is
`"Nov 28, 2025 - Current Employee - Engineer"`, the produced record has
date `"Nov 28, 2025"` and job_title `"Current Employee - Engineer"` (date
substring and leading whitespace/hyphen/pipe separators stripped). -/
theorem c6_date_jobtitle_amended (card : Card) (r : Record)
    (hd : findDateIn card.innerText = some "Nov 28, 2025".toList)
    (hl : (splitNl card.innerText).find? (fun l => containsSub l "Nov 28, 2025".toList)
        = some "Nov 28, 2025 - Current Employee - Engineer".toList)
    (hp : parseReviewCard card = some r) :
    r.date = some "Nov 28, 2025".toList ∧
    r.job_title = some "Current Employee - Engineer".toList := by
  obtain ⟨-, hr⟩ := parse_some_inv card r hp
  subst hr
  constructor
  · exact hd
  · show extractJobTitle card = _
    simp only [extractJobTitle, extractDate, hd, hl]
    decide

/-- Witness for the amended C6: the concrete node `c6Card`. -/
theorem c6_date_jobtitle_amended_witness :
    r6.date = some "Nov 28, 2025".toList ∧
    r6.job_title = some "Current Employee - Engineer".toList :=
  c6_date_jobtitle_amended c6Card r6 (by decide) (by decide) (by decide)
